import Mathlib

/-!
Verification of the financial-statement aggregation core.

Shallow embedding, in Lean 4, of the aggregation logic of the financial
dashboard application:

* `utils.safe_convert`            → `safe_convert`
* the multi-year partitioning loop shared by
  `FinancialDashboardApp._create_analysis_summary` (app.py) and
  `ChartService.create_period_charts` (chart_service.py)
                                  → `yearPartition`
* the ratio computation of
  `ChartService.create_profitability_radar_chart` (chart_service.py)
                                  → `deriveRatios`
* `FinancialDashboardApp._create_analysis_summary` (app.py)
                                  → `createAnalysisSummary`
* the single-year split of `ChartService.create_financial_charts`
                                  → `singleYearPartition`

Amounts are modelled as exact rationals (`ℚ`); Python runtime values that can
sit in an amount field are modelled by `PyVal`.  The Python `float(...)` builtin
applied to a string is modelled by `pyFloat`, covering the grammar fragment
`[+|-] digits [. digits]` that disclosure amounts inhabit; every string outside
this fragment (in particular `"-"`, `""`, and comma-separated strings) is
unparsable, exactly as `float` raises `ValueError` on them.

Statement groups, ratio records, and the Aggregation Summary follow the field
layout the Python dicts carry; certain values (account names, ratio display
names) keep the exact source strings, Korean labels included.
-/

namespace FsApp

/-- A Python value that can appear in an amount field: a string, an int,
a float, or `None`. -/
inductive PyVal where
  | str (s : String)
  | int (n : Int)
  | float (q : ℚ)
  | pyNone
deriving DecidableEq, Repr

/-- Model of the Python replace call that deletes commas: remove every comma. -/
def stripCommas (s : String) : String :=
  String.mk (s.data.filter (fun c => c ≠ ','))

/-- Digits-to-number accumulator, as positional base-10 reading. -/
def digitsToNat (cs : List Char) : ℕ :=
  cs.foldl (fun a c => a * 10 + (c.toNat - 48)) 0

/-- Split a character list at its (unique) decimal point.  `none` when the
list contains more than one dot. -/
def splitDot : List Char → Option (List Char × List Char)
  | [] => some ([], [])
  | c :: cs =>
    if c = '.' then
      if cs.contains '.' then none else some ([], cs)
    else
      match splitDot cs with
      | none => none
      | some (a, b) => some (c :: a, b)

/-- Unsigned part of the Python `float` string grammar fragment:
digits with at most one decimal point, at least one digit in total. -/
def pyFloatCore (cs : List Char) : Option ℚ :=
  match splitDot cs with
  | none => none
  | some (ip, fp) =>
    if (ip ++ fp).all Char.isDigit && !(ip.isEmpty && fp.isEmpty) then
      if fp.isEmpty then some ((digitsToNat ip : ℚ))
      else some ((digitsToNat ip : ℚ) + (digitsToNat fp : ℚ) / (10 : ℚ) ^ fp.length)
    else none

/-- Model of the Python builtin `float` applied to a string: `some q` when the
string parses, `none` when `float` raises `ValueError`. -/
def pyFloat (s : String) : Option ℚ :=
  match s.data with
  | '-' :: rest => (pyFloatCore rest).map (fun q => -q)
  | '+' :: rest => pyFloatCore rest
  | cs => pyFloatCore cs

/-- Model of the Python builtin `float` applied to an arbitrary value:
ints and floats convert, strings parse (no comma stripping!), `None`
raises (`none`). -/
def pyFloatVal : PyVal → Option ℚ
  | .str s => pyFloat s
  | .int n => some (n : ℚ)
  | .float q => some q
  | .pyNone => none

/-- Model of `utils.safe_convert`: strings have commas stripped then are parsed, a
parse failure yields `0.0`; ints and floats convert; anything else
(including `None`) yields `0.0`.  Total by construction, mirroring the
`try/except` that swallows `ValueError`/`TypeError`. -/
def safe_convert : PyVal → ℚ
  | .str s => (pyFloat (stripCommas s)).getD 0
  | .int n => (n : ℚ)
  | .float q => q
  | .pyNone => 0

/-- One raw line item as consumed by the aggregation code: the record fields
actually read are `bsns_year`, `fs_div`, `sj_div`, `account_nm`, and
`thstrm_amount`. -/
structure Item where
  bsns_year : String
  fs_div : String
  sj_div : String
  account_nm : String
  thstrm_amount : PyVal
deriving DecidableEq, Repr

/-- Model of the dict comprehension
mapping account_nm to item used by the ratio code:
entries are inserted left to right, so a later item with the same account
name overwrites an earlier one. -/
def buildDict (items : List Item) : String → Option Item :=
  items.foldl (fun d it => fun n => if it.account_nm == n then some it else d n)
    (fun _ => none)

/-- Model of the chained dict get with default 0 on thstrm_amount: the amount
field of the looked-up item, or the int `0` when the account name is absent. -/
def amountOf (d : String → Option Item) (name : String) : PyVal :=
  match d name with
  | some it => it.thstrm_amount
  | none => .int 0

/-- Normalized current-period amount of the named account in a group, as the
ratio code computes it: dict lookup, then `safe_convert`. -/
def acctAmount (items : List Item) (name : String) : ℚ :=
  safe_convert (amountOf (buildDict items) name)

/-- One derived ratio as the radar chart records it: display name and
percentage value. The parallel display-label lists (`account_names`,
`numerator_amounts`, `base_amounts`) only feed hover text and are elided. -/
structure RatioRec where
  name : String
  value : ℚ
deriving DecidableEq, Repr

/-- Display name the source attaches to the ROE ratio. -/
def roeName : String := "ROE<br>(자기자본이익률)"

/-- Display name the source attaches to the ROA ratio. -/
def roaName : String := "ROA<br>(총자산이익률)"

/-- Display name the source attaches to the operating-margin ratio. -/
def opMarginName : String := "영업이익률"

/-- Display name the source attaches to the net-margin ratio. -/
def netMarginName : String := "순이익률"

/-- The ratio computation of `ChartService.create_profitability_radar_chart`:
given the balance-sheet and income-statement groups, build the list of ratio
records, in source order, each guarded by `denominator > 0`.  Mirrors the
early `return {}` on an empty group and the account lookups via
safe_convert over the chained dict get with default 0. -/
def deriveRatios (bsl isl : List Item) : List RatioRec :=
  if bsl.isEmpty || isl.isEmpty then [] else
  let bsD := buildDict bsl
  let isD := buildDict isl
  let net_income := safe_convert (amountOf isD "당기순이익")
  let total_equity := safe_convert (amountOf bsD "자본총계")
  let part1 := if total_equity > 0 then
    [⟨roeName, net_income / total_equity * 100⟩] else []
  let total_assets := safe_convert (amountOf bsD "자산총계")
  let part2 := if total_assets > 0 then
    [⟨roaName, net_income / total_assets * 100⟩] else []
  let operating_income := safe_convert (amountOf isD "영업이익")
  let revenue := safe_convert (amountOf isD "매출액")
  let part3 := if revenue > 0 then
    [⟨opMarginName, operating_income / revenue * 100⟩] else []
  let part4 := if revenue > 0 then
    [⟨netMarginName, net_income / revenue * 100⟩] else []
  part1 ++ part2 ++ part3 ++ part4

/-- The display names of the ratios emitted for a pair of groups. -/
def ratioNames (bsl isl : List Item) : List String :=
  (deriveRatios bsl isl).map RatioRec.name

/-- Bucket pair of one year: the BS list and the IS list. -/
structure Groups where
  bs : List Item
  is : List Item
deriving DecidableEq, Repr

/-- Routing of one item into the buckets of its year, by the `fs_div` tag:
`BS` appends to the balance-sheet list, `IS` to the income-statement list,
`CFS` to both, anything else to neither. -/
def routeItem (it : Item) (g : Groups) : Groups :=
  if it.fs_div == "CFS" then ⟨g.bs ++ [it], g.is ++ [it]⟩
  else if it.fs_div == "BS" then ⟨g.bs ++ [it], g.is⟩
  else if it.fs_div == "IS" then ⟨g.bs, g.is ++ [it]⟩
  else g

/-- One iteration of the grouping loop: register the year of the item (insertion
order preserved, as for a Python dict) and then route the item by `fs_div`.
The year key is registered even when the tag is unrecognized, exactly as in
the source, where the empty bucket pair is installed before the
`fs_div` test. -/
def partitionStep (m : List (String × Groups)) (it : Item) : List (String × Groups) :=
  let m1 := if m.any (fun p => p.1 == it.bsns_year) then m
            else m ++ [(it.bsns_year, ⟨[], []⟩)]
  m1.map (fun p => if p.1 == it.bsns_year then (p.1, routeItem it p.2) else p)

/-- The year-grouping loop shared verbatim by
`FinancialDashboardApp._create_analysis_summary` and
`ChartService.create_period_charts`: fold the items left to right into an
insertion-ordered association list from year string to bucket pair. -/
def yearPartition (items : List Item) : List (String × Groups) :=
  items.foldl partitionStep []

/-- The single-year split of `ChartService.create_financial_charts`: filter
by the `sj_div` field (not `fs_div`), with no combined-statement folding. -/
def singleYearPartition (items : List Item) : List Item × List Item :=
  (items.filter (fun it => it.sj_div == "BS"),
   items.filter (fun it => it.sj_div == "IS"))

/-- Lexicographic (code-point) comparison of character lists, as Python
compares strings. -/
def lexLe : List Char → List Char → Bool
  | [], _ => true
  | _ :: _, [] => false
  | a :: as, b :: bs => if a = b then lexLe as bs else decide (a < b)

/-- Python `<=` on strings: lexicographic by code point. -/
def strLe (a b : String) : Bool := lexLe a.data b.data

/-- The ordering proposition sorted summary years satisfy. -/
def strLeProp (a b : String) : Prop := strLe a b = true

instance : DecidableRel strLeProp := fun a b => decEq (strLe a b) true

/-- Model of Python `sorted` on a list of (distinct) strings: sort by
code-point lexicographic order. -/
def pySorted (l : List String) : List String :=
  List.insertionSort strLeProp l

/-- Numeric value of a digit string. -/
def strNat (s : String) : ℕ := digitsToNat s.data

/-- Numeric comparison of year strings, the order the spec asks for. -/
def numLe (a b : String) : Prop := strNat a ≤ strNat b

/-- Per-year entry of the key_metrics mapping in the summary. -/
structure Metrics where
  revenue : ℚ
  net_income : ℚ
  total_assets : ℚ
  total_equity : ℚ
  roe : ℚ
  roa : ℚ
deriving DecidableEq, Repr

/-- The metric bundle `_create_analysis_summary` computes for one included
year.  Each amount goes through the raw `float(...)` builtin — not through
`safe_convert` — so an unparsable amount string aborts the whole summary
(modelled by `none`, the Python `ValueError` caught by the enclosing
`except`). -/
def metricsOf (g : Groups) : Option Metrics :=
  let bsD := buildDict g.bs
  let isD := buildDict g.is
  match pyFloatVal (amountOf isD "매출액") with
  | none => none
  | some revenue =>
  match pyFloatVal (amountOf isD "당기순이익") with
  | none => none
  | some net_income =>
  match pyFloatVal (amountOf bsD "자산총계") with
  | none => none
  | some total_assets =>
  match pyFloatVal (amountOf bsD "자본총계") with
  | none => none
  | some total_equity =>
  some ⟨revenue, net_income, total_assets, total_equity,
    if total_equity > 0 then net_income / total_equity * 100 else 0,
    if total_assets > 0 then net_income / total_assets * 100 else 0⟩

/-- The `key_metrics` loop of `_create_analysis_summary`: walk the sorted
year keys, skip a year when either bucket is empty, otherwise compute the
metric bundle; a `float` failure anywhere aborts the whole computation. -/
def buildKeyMetrics (yd : List (String × Groups)) :
    List String → Option (List (String × Metrics))
  | [] => some []
  | y :: ys =>
    match List.lookup y yd with
    | none => buildKeyMetrics yd ys
    | some g =>
      if g.bs.isEmpty || g.is.isEmpty then buildKeyMetrics yd ys
      else
        match metricsOf g with
        | none => none
        | some m =>
          match buildKeyMetrics yd ys with
          | none => none
          | some rest => some ((y, m) :: rest)

/-- The Aggregation Summary record. -/
structure Summary where
  period : String
  total_years : ℕ
  years : List String
  key_metrics : List (String × Metrics)
deriving DecidableEq, Repr

/-- `FinancialDashboardApp._create_analysis_summary`: group by year, then
assemble period label, year count, sorted year keys, and per-year metric
bundles.  `none` models the `except` branch returning `None` after a raw
`float(...)` call raises. -/
def createAnalysisSummary (items : List Item) (startY endY : String) :
    Option Summary :=
  let yd := yearPartition items
  let years := pySorted (yd.map Prod.fst)
  match buildKeyMetrics yd years with
  | none => none
  | some km =>
    some ⟨startY ++ "년 ~ " ++ endY ++ "년", yd.length, years, km⟩

/-- Specification-side description of the bucket pair the grouping loop
produces for a year: balance-sheet bucket holds the BS- and CFS-tagged items
of that year, income-statement bucket the IS- and CFS-tagged ones, both in
input order; items with any other tag are in neither. -/
def filterGroups (y : String) (items : List Item) : Groups :=
  ⟨items.filter (fun it => it.bsns_year == y && (it.fs_div == "BS" || it.fs_div == "CFS")),
   items.filter (fun it => it.bsns_year == y && (it.fs_div == "IS" || it.fs_div == "CFS"))⟩

/-- Two-year range where 2021 has only an IncomeStatement item while 2022 has
both statements. -/
def c1Items : List Item :=
  [⟨"2021", "IS", "IS", "매출액", .str "100"⟩,
   ⟨"2022", "BS", "BS", "자본총계", .str "0"⟩,
   ⟨"2022", "IS", "IS", "당기순이익", .str "10"⟩]

/-- The summary the code produces on `c1Items`. -/
def c1s : Summary :=
  ⟨"2021년 ~ 2022년", 2, ["2021", "2022"], [("2022", ⟨0, 10, 0, 0, 0, 0⟩)]⟩

/-- Balance-sheet group holding two items with the same account name
(total equity), first occurrence amount 0, second occurrence amount 200. -/
def c2bs : List Item :=
  [⟨"2022", "BS", "BS", "자본총계", .str "0"⟩,
   ⟨"2022", "BS", "BS", "자본총계", .str "200"⟩]

/-- Income-statement group with a net-income item, for the duplicate test. -/
def c2is : List Item :=
  [⟨"2022", "IS", "IS", "당기순이익", .str "50"⟩]

/-- A year with both statement groups where the revenue amount is the
unparsable dash placeholder. -/
def c3Items : List Item :=
  [⟨"2022", "BS", "BS", "자본총계", .str "50"⟩,
   ⟨"2022", "IS", "IS", "매출액", .str "-"⟩]

/-- Balance-sheet group with positive total equity but no other account. -/
def c4bs : List Item :=
  [⟨"2022", "BS", "BS", "자본총계", .str "100"⟩]

/-- Income-statement group with revenue only: the net-income account (the
ROE and net-margin numerator) is absent. -/
def c4is : List Item :=
  [⟨"2022", "IS", "IS", "매출액", .str "200"⟩]

/-- Balance-sheet group whose total equity is exactly 0. -/
def c7bs : List Item := [⟨"2022", "BS", "BS", "자본총계", .str "0"⟩]

/-- Income-statement group with a nonzero net income. -/
def c7is : List Item := [⟨"2022", "IS", "IS", "당기순이익", .str "10"⟩]

/-- One-year item list combining `c7bs` and `c7is`. -/
def c7Items : List Item := c7bs ++ c7is

/-- Metric bundle the summary computes for the zero-equity year. -/
def c7m : Metrics := ⟨0, 10, 0, 0, 0, 0⟩

/-- The summary the code produces on `c7Items`. -/
def c7s : Summary := ⟨"2022년 ~ 2022년", 1, ["2022"], [("2022", c7m)]⟩

/-- Items for two years whose year strings have different digit widths. -/
def c8Items : List Item :=
  [⟨"999", "BS", "BS", "자본총계", .str "0"⟩,
   ⟨"999", "IS", "IS", "당기순이익", .str "1"⟩,
   ⟨"1000", "BS", "BS", "자본총계", .str "0"⟩,
   ⟨"1000", "IS", "IS", "당기순이익", .str "1"⟩]

/-- Items for the three 4-digit years 2019, 2021, 2020, in that input order. -/
def c8wItems : List Item :=
  [⟨"2019", "BS", "BS", "자본총계", .str "0"⟩,
   ⟨"2019", "IS", "IS", "당기순이익", .str "1"⟩,
   ⟨"2021", "BS", "BS", "자본총계", .str "0"⟩,
   ⟨"2021", "IS", "IS", "당기순이익", .str "1"⟩,
   ⟨"2020", "BS", "BS", "자본총계", .str "0"⟩,
   ⟨"2020", "IS", "IS", "당기순이익", .str "1"⟩]

/-- The summary the code produces on `c8wItems`. -/
def c8s : Summary :=
  ⟨"2019년 ~ 2021년", 3, ["2019", "2020", "2021"],
   [("2019", ⟨0, 1, 0, 0, 0, 0⟩), ("2020", ⟨0, 1, 0, 0, 0, 0⟩),
    ("2021", ⟨0, 1, 0, 0, 0, 0⟩)]⟩

/-- Balance-sheet group whose total equity is strictly negative. -/
def c9bs : List Item := [⟨"2022", "BS", "BS", "자본총계", .str "-5"⟩]

/-- Income-statement group with a nonzero net income, negative-equity test. -/
def c9is : List Item := [⟨"2022", "IS", "IS", "당기순이익", .str "10"⟩]

/-- One-year item list combining `c9bs` and `c9is`. -/
def c9Items : List Item := c9bs ++ c9is

/-- Metric bundle the summary computes for the negative-equity year. -/
def c9m : Metrics := ⟨0, 10, 0, -5, 0, 0⟩

/-- The summary the code produces on `c9Items`. -/
def c9s : Summary := ⟨"2022년 ~ 2022년", 1, ["2022"], [("2022", c9m)]⟩

/-! Basic lemmas about the normalizer and the account-name lookup. -/

lemma stripCommas_idem (s : String) : stripCommas (stripCommas s) = stripCommas s := by
  simp only [stripCommas, List.filter_filter]
  congr 1
  apply List.filter_congr
  intro c _
  simp

/-- The account-name lookup built by the dict comprehension returns the last
item in input order bearing the requested account name. -/
lemma buildDict_last (l : List Item) (n : String) :
    buildDict l n = l.reverse.find? (fun it => it.account_nm == n) := by
  induction l using List.reverseRecOn with
  | nil => rfl
  | append_singleton l a ih =>
    have hb : buildDict (l ++ [a]) n =
        if a.account_nm == n then some a else buildDict l n := by
      simp [buildDict, List.foldl_append]
    rw [hb, List.reverse_append]
    cases h : a.account_nm == n <;> simp [List.find?_cons, h, ih]

lemma mem_of_buildDict_eq_some {l : List Item} {n : String} {it : Item}
    (h : buildDict l n = some it) : it ∈ l := by
  rw [buildDict_last] at h
  exact List.mem_reverse.mp (List.mem_of_find?_eq_some h)

/-- C5: the amount normalizer is total — it returns a rational for every
input without failing — with the dash placeholder, the empty string and
`None` all normalizing to 0, and normalization invariant under comma
stripping. -/
theorem safe_convert_total_spec :
    safe_convert (.str "-") = 0 ∧ safe_convert (.str "") = 0 ∧
      safe_convert PyVal.pyNone = 0 ∧
      ∀ s : String, safe_convert (.str s) = safe_convert (.str (stripCommas s)) := by
  refine ⟨by decide, by decide, by decide, fun s => ?_⟩
  simp only [safe_convert, stripCommas_idem]

/-- C2 counterexample: with two total-equity items in the same group (first
occurrence amount 0, second occurrence amount 200), the lookup feeding the
ratio computation returns the second item, the normalized equity is 200, and
ROE is therefore emitted — under the claimed first-occurrence semantics the
equity would be 0 and ROE would be omitted. -/
theorem duplicate_account_uses_last_cex :
    buildDict c2bs "자본총계" = some ⟨"2022", "BS", "BS", "자본총계", .str "200"⟩ ∧
      acctAmount c2bs "자본총계" = 200 ∧
      safe_convert (Item.thstrm_amount ⟨"2022", "BS", "BS", "자본총계", .str "0"⟩) = 0 ∧
      roeName ∈ ratioNames c2bs c2is := by
  refine ⟨by decide, by decide, by decide, by decide⟩

/-- C2 amended: the per-group account-name lookup used by the Ratio Deriver
keeps, for each account name, the LAST Line Item with that name in input
order — earlier duplicates are overwritten, not later ones ignored. -/
theorem ratio_lookup_keeps_last_occurrence (l : List Item) (n : String) :
    buildDict l n = l.reverse.find? (fun it => it.account_nm == n) :=
  buildDict_last l n

/-! Shape of the ratio list produced by the deriver. -/

lemma deriveRatios_eq (bsl isl : List Item) (h1 : bsl ≠ []) (h2 : isl ≠ []) :
    deriveRatios bsl isl =
      (if acctAmount bsl "자본총계" > 0 then
        [⟨roeName, acctAmount isl "당기순이익" / acctAmount bsl "자본총계" * 100⟩]
       else []) ++
      (if acctAmount bsl "자산총계" > 0 then
        [⟨roaName, acctAmount isl "당기순이익" / acctAmount bsl "자산총계" * 100⟩]
       else []) ++
      (if acctAmount isl "매출액" > 0 then
        [⟨opMarginName, acctAmount isl "영업이익" / acctAmount isl "매출액" * 100⟩]
       else []) ++
      (if acctAmount isl "매출액" > 0 then
        [⟨netMarginName, acctAmount isl "당기순이익" / acctAmount isl "매출액" * 100⟩]
       else []) := by
  have e1 : bsl.isEmpty = false := by simpa using h1
  have e2 : isl.isEmpty = false := by simpa using h2
  simp only [deriveRatios, acctAmount, e1, e2, Bool.or_self, Bool.false_or,
    Bool.false_eq_true, if_false]

lemma name_ne_1 : roeName ≠ roaName := by decide

lemma name_ne_2 : roeName ≠ opMarginName := by decide

lemma name_ne_3 : roeName ≠ netMarginName := by decide

lemma name_ne_4 : roaName ≠ opMarginName := by decide

lemma name_ne_5 : roaName ≠ netMarginName := by decide

lemma name_ne_6 : opMarginName ≠ netMarginName := by decide

lemma roe_mem_iff (bsl isl : List Item) (h1 : bsl ≠ []) (h2 : isl ≠ []) :
    (roeName ∈ ratioNames bsl isl ↔ 0 < acctAmount bsl "자본총계") := by
  rw [ratioNames, deriveRatios_eq bsl isl h1 h2]
  by_cases hq : 0 < acctAmount bsl "자본총계" <;>
    by_cases ha : 0 < acctAmount bsl "자산총계" <;>
      by_cases hr : 0 < acctAmount isl "매출액" <;>
        simp [hq, ha, hr, name_ne_1, name_ne_2, name_ne_3]

lemma roa_mem_iff (bsl isl : List Item) (h1 : bsl ≠ []) (h2 : isl ≠ []) :
    (roaName ∈ ratioNames bsl isl ↔ 0 < acctAmount bsl "자산총계") := by
  rw [ratioNames, deriveRatios_eq bsl isl h1 h2]
  by_cases hq : 0 < acctAmount bsl "자본총계" <;>
    by_cases ha : 0 < acctAmount bsl "자산총계" <;>
      by_cases hr : 0 < acctAmount isl "매출액" <;>
        simp [hq, ha, hr, name_ne_1.symm, name_ne_4, name_ne_5]

lemma opMargin_mem_iff (bsl isl : List Item) (h1 : bsl ≠ []) (h2 : isl ≠ []) :
    (opMarginName ∈ ratioNames bsl isl ↔ 0 < acctAmount isl "매출액") := by
  rw [ratioNames, deriveRatios_eq bsl isl h1 h2]
  by_cases hq : 0 < acctAmount bsl "자본총계" <;>
    by_cases ha : 0 < acctAmount bsl "자산총계" <;>
      by_cases hr : 0 < acctAmount isl "매출액" <;>
        simp [hq, ha, hr, name_ne_2.symm, name_ne_4.symm, name_ne_6]

lemma netMargin_mem_iff (bsl isl : List Item) (h1 : bsl ≠ []) (h2 : isl ≠ []) :
    (netMarginName ∈ ratioNames bsl isl ↔ 0 < acctAmount isl "매출액") := by
  rw [ratioNames, deriveRatios_eq bsl isl h1 h2]
  by_cases hq : 0 < acctAmount bsl "자본총계" <;>
    by_cases ha : 0 < acctAmount bsl "자산총계" <;>
      by_cases hr : 0 < acctAmount isl "매출액" <;>
        simp [hq, ha, hr, name_ne_3.symm, name_ne_5.symm, name_ne_6.symm]

/-- C4 counterexample: with a positive total equity but no net-income account
in the income-statement group, the deriver nevertheless emits the ROE record,
and with value zero — the claim says a ratio whose required (numerator)
account is absent is never emitted, and never with value zero. -/
theorem missing_numerator_emits_zero_cex :
    acctAmount c4is "당기순이익" = 0 ∧
      buildDict c4is "당기순이익" = none ∧
      RatioRec.mk roeName 0 ∈ deriveRatios c4bs c4is := by
  refine ⟨by decide, by decide, ?_⟩
  rw [deriveRatios_eq c4bs c4is (by decide) (by decide)]
  have h1 : acctAmount c4bs "자본총계" = 100 := by decide
  have h2 : acctAmount c4is "당기순이익" = 0 := by decide
  have h3 : acctAmount c4bs "자산총계" = 0 := by decide
  have h4 : acctAmount c4is "매출액" = 200 := by decide
  rw [h1, h2, h3, h4]
  norm_num

/-- C4 amended: a ratio record is emitted exactly when its DENOMINATOR
normalizes to a strictly positive amount; absence of a numerator account does
not suppress the ratio — the numerator normalizes to 0 and the record is
emitted with value 0. -/
theorem ratio_present_iff_denominator_pos (bsl isl : List Item)
    (h1 : bsl ≠ []) (h2 : isl ≠ []) :
    (roeName ∈ ratioNames bsl isl ↔ 0 < acctAmount bsl "자본총계") ∧
      (roaName ∈ ratioNames bsl isl ↔ 0 < acctAmount bsl "자산총계") ∧
      (opMarginName ∈ ratioNames bsl isl ↔ 0 < acctAmount isl "매출액") ∧
      (netMarginName ∈ ratioNames bsl isl ↔ 0 < acctAmount isl "매출액") :=
  ⟨roe_mem_iff bsl isl h1 h2, roa_mem_iff bsl isl h1 h2,
    opMargin_mem_iff bsl isl h1 h2, netMargin_mem_iff bsl isl h1 h2⟩

/-- C4 witness: the amended theorem instantiated on the concrete groups
`c4bs`, `c4is`, where equity is 100 and revenue 200 so ROE and both margins
are present while ROA (assets absent, normalizing to 0) is not. -/
theorem ratio_present_iff_denominator_pos_witness :
    c4bs ≠ [] ∧ c4is ≠ [] ∧
      (roeName ∈ ratioNames c4bs c4is ↔ 0 < acctAmount c4bs "자본총계") ∧
      (roaName ∈ ratioNames c4bs c4is ↔ 0 < acctAmount c4bs "자산총계") :=
  ⟨by decide, by decide,
    (ratio_present_iff_denominator_pos c4bs c4is (by decide) (by decide)).1,
    (ratio_present_iff_denominator_pos c4bs c4is (by decide) (by decide)).2.1⟩

/-! Lemmas about the summary construction. -/

lemma metricsOf_fields {g : Groups} {m : Metrics} (h : metricsOf g = some m) :
    (¬ 0 < m.total_equity → m.roe = 0) ∧ (¬ 0 < m.total_assets → m.roa = 0) := by
  unfold metricsOf at h
  dsimp only at h
  split at h
  · exact absurd h (by simp)
  split at h
  · exact absurd h (by simp)
  split at h
  · exact absurd h (by simp)
  split at h
  · exact absurd h (by simp)
  injection h with h
  subst h
  constructor <;> intro hne <;> simp only [if_neg hne]

lemma buildKeyMetrics_mem {yd : List (String × Groups)} :
    ∀ {ys : List String} {km : List (String × Metrics)},
      buildKeyMetrics yd ys = some km → ∀ y m, (y, m) ∈ km →
        ∃ g, List.lookup y yd = some g ∧ g.bs ≠ [] ∧ g.is ≠ [] ∧
          metricsOf g = some m := by
  intro ys
  induction ys with
  | nil =>
    intro km h y m hm
    rw [buildKeyMetrics] at h
    injection h with h
    subst h
    exact absurd hm (List.not_mem_nil _)
  | cons y0 ys ih =>
    intro km h y m hm
    rw [buildKeyMetrics] at h
    split at h
    · exact ih h y m hm
    · rename_i g hg
      split at h
      · exact ih h y m hm
      · rename_i hne
        split at h
        · exact absurd h (by simp)
        · rename_i m0 hm0
          split at h
          · exact absurd h (by simp)
          · rename_i rest hrest
            injection h with h
            subst h
            rcases List.mem_cons.mp hm with h1 | h2
            · have hy : y = y0 ∧ m = m0 := by
                constructor <;> [exact congrArg Prod.fst h1; exact congrArg Prod.snd h1]
              obtain ⟨rfl, rfl⟩ := hy
              have hbs : g.bs ≠ [] ∧ g.is ≠ [] := by
                constructor <;> intro hc <;> rw [hc] at hne <;> simp at hne
              exact ⟨g, hg, hbs.1, hbs.2, hm0⟩
            · exact ih hrest y m h2

lemma summary_fields {items : List Item} {sy ey : String} {s : Summary}
    (h : createAnalysisSummary items sy ey = some s) :
    s.period = sy ++ "년 ~ " ++ ey ++ "년" ∧
      s.total_years = (yearPartition items).length ∧
      s.years = pySorted ((yearPartition items).map Prod.fst) ∧
      buildKeyMetrics (yearPartition items)
        (pySorted ((yearPartition items).map Prod.fst)) = some s.key_metrics := by
  unfold createAnalysisSummary at h
  dsimp only at h
  split at h
  · exact absurd h (by simp)
  · rename_i km hkm
    injection h with h
    subst h
    exact ⟨rfl, rfl, rfl, hkm⟩

/-- C7: the dual zero-equity policy — when a balance-sheet group normalizes
total equity to 0, the Ratio Deriver omits ROE from its record list, while
the Aggregation Summary keeps the year with ROE defaulted to 0. -/
theorem zero_equity_dual_policy :
    (∀ bsl isl : List Item, acctAmount bsl "자본총계" = 0 →
        roeName ∉ ratioNames bsl isl) ∧
      (∀ (items : List Item) (sy ey : String) (s : Summary) (y : String)
          (m : Metrics), createAnalysisSummary items sy ey = some s →
        (y, m) ∈ s.key_metrics → m.total_equity = 0 → m.roe = 0) := by
  constructor
  · intro bsl isl h
    by_cases hb : bsl = []
    · simp [ratioNames, deriveRatios, hb]
    by_cases hi : isl = []
    · simp [ratioNames, deriveRatios, hi, List.isEmpty_iff]
    rw [roe_mem_iff bsl isl hb hi, h]
    exact lt_irrefl 0
  · intro items sy ey s y m hs hm he
    obtain ⟨g, _, _, _, hmo⟩ :=
      buildKeyMetrics_mem (summary_fields hs).2.2.2 y m hm
    exact (metricsOf_fields hmo).1 (by rw [he]; exact lt_irrefl 0)

/-- C7 witness: the dual policy at the concrete zero-equity groups `c7bs`,
`c7is` and the one-year list `c7Items` built from them. -/
theorem zero_equity_dual_policy_witness :
    roeName ∉ ratioNames c7bs c7is ∧ c7m.roe = 0 :=
  ⟨zero_equity_dual_policy.1 c7bs c7is (by decide),
    zero_equity_dual_policy.2 c7Items "2022" "2022" c7s "2022" c7m
      (by decide) (by decide) (by decide)⟩

/-- C9: the denominator guards compare with strict positivity, so a strictly
negative denominator also suppresses a ratio in the deriver and defaults
ROE/ROA to 0 in the summary, even though the denominator is nonzero. -/
theorem negative_denominator_guard :
    (∀ bsl isl : List Item, acctAmount bsl "자본총계" < 0 →
        roeName ∉ ratioNames bsl isl) ∧
      (∀ bsl isl : List Item, acctAmount bsl "자산총계" < 0 →
        roaName ∉ ratioNames bsl isl) ∧
      (∀ bsl isl : List Item, acctAmount isl "매출액" < 0 →
        opMarginName ∉ ratioNames bsl isl ∧ netMarginName ∉ ratioNames bsl isl) ∧
      (∀ (items : List Item) (sy ey : String) (s : Summary) (y : String)
          (m : Metrics), createAnalysisSummary items sy ey = some s →
        (y, m) ∈ s.key_metrics →
          (m.total_equity < 0 → m.roe = 0) ∧ (m.total_assets < 0 → m.roa = 0)) := by
  refine ⟨?_, ?_, ?_, ?_⟩
  · intro bsl isl h
    by_cases hb : bsl = []
    · simp [ratioNames, deriveRatios, hb]
    by_cases hi : isl = []
    · simp [ratioNames, deriveRatios, hi, List.isEmpty_iff]
    rw [roe_mem_iff bsl isl hb hi]
    exact lt_asymm h
  · intro bsl isl h
    by_cases hb : bsl = []
    · simp [ratioNames, deriveRatios, hb]
    by_cases hi : isl = []
    · simp [ratioNames, deriveRatios, hi, List.isEmpty_iff]
    rw [roa_mem_iff bsl isl hb hi]
    exact lt_asymm h
  · intro bsl isl h
    by_cases hb : bsl = []
    · simp [ratioNames, deriveRatios, hb]
    by_cases hi : isl = []
    · simp [ratioNames, deriveRatios, hi, List.isEmpty_iff]
    rw [opMargin_mem_iff bsl isl hb hi, netMargin_mem_iff bsl isl hb hi]
    exact ⟨lt_asymm h, lt_asymm h⟩
  · intro items sy ey s y m hs hm
    obtain ⟨g, _, _, _, hmo⟩ :=
      buildKeyMetrics_mem (summary_fields hs).2.2.2 y m hm
    have hf := metricsOf_fields hmo
    exact ⟨fun hlt => hf.1 (lt_asymm hlt), fun hlt => hf.2 (lt_asymm hlt)⟩

/-- C9 witness: the strict-positivity guard at the concrete negative-equity
groups `c9bs`, `c9is` and the one-year list `c9Items` built from them. -/
theorem negative_denominator_guard_witness :
    acctAmount c9bs "자본총계" < 0 ∧ roeName ∉ ratioNames c9bs c9is ∧
      c9m.total_equity < 0 ∧ c9m.roe = 0 :=
  ⟨by decide, negative_denominator_guard.1 c9bs c9is (by decide), by decide,
    (negative_denominator_guard.2.2.2 c9Items "2022" "2022" c9s "2022" c9m
      (by decide) (by decide)).1 (by decide)⟩

/-! Characterization of the year-grouping loop. -/

lemma any_key_eq_isSome (m : List (String × Groups)) (y : String) :
    (m.any (fun p => p.1 == y)) = (List.lookup y m).isSome := by
  induction m with
  | nil => rfl
  | cons p rest ih =>
    obtain ⟨k, g⟩ := p
    by_cases h : y = k
    · subst h; simp [List.lookup_cons]
    · have h1 : (k == y) = false := beq_false_of_ne (Ne.symm h)
      have h2 : (y == k) = false := beq_false_of_ne h
      simp [List.lookup_cons, h1, h2, ih]

lemma lookup_mapUpdate (m : List (String × Groups)) (it : Item)
    (y yr : String) :
    List.lookup y (m.map (fun p => if p.1 == yr then (p.1, routeItem it p.2) else p)) =
      if y == yr then (List.lookup y m).map (routeItem it) else List.lookup y m := by
  induction m with
  | nil => cases h : (y == yr) <;> simp [h]
  | cons p rest ih =>
    obtain ⟨k, g⟩ := p
    simp only [List.map_cons]
    cases hk : (k == yr) with
    | true =>
      simp only [hk, if_true]
      cases hy : (y == k) with
      | true =>
        have hyr : (y == yr) = true := by
          have e1 : y = k := eq_of_beq hy
          have e2 : k = yr := eq_of_beq hk
          simp [e1, e2]
        simp [List.lookup_cons, hy, hyr]
      | false =>
        have hyr : (y == yr) = false := by
          refine beq_false_of_ne (fun he => ?_)
          have e2 : k = yr := eq_of_beq hk
          rw [he, ← e2] at hy
          simp at hy
        simp only [List.lookup_cons, hy, hyr, Bool.false_eq_true, if_false]
        rw [ih]
        simp only [hyr, Bool.false_eq_true, if_false]
    | false =>
      simp only [hk, Bool.false_eq_true, if_false]
      cases hy : (y == k) with
      | true =>
        have hyr : (y == yr) = false := by
          refine beq_false_of_ne (fun he => ?_)
          have e1 : y = k := eq_of_beq hy
          rw [← e1, he] at hk
          simp at hk
        simp [List.lookup_cons, hy, hyr]
      | false =>
        simp only [List.lookup_cons, hy]
        exact ih

lemma lookup_append_singleton (l : List (String × Groups)) (yr : String)
    (g0 : Groups) (y : String) :
    List.lookup y (l ++ [(yr, g0)]) =
      match List.lookup y l with
      | some g => some g
      | none => if y == yr then some g0 else none := by
  induction l with
  | nil => cases h : (y == yr) <;> simp [List.lookup_cons, h]
  | cons p rest ih =>
    obtain ⟨k, g⟩ := p
    cases hy : (y == k) with
    | true => simp [List.lookup_cons, hy]
    | false => simp [List.lookup_cons, hy, ih]

lemma lookup_partitionStep (m : List (String × Groups)) (it : Item) (y : String) :
    List.lookup y (partitionStep m it) =
      if y == it.bsns_year then
        some (routeItem it ((List.lookup y m).getD ⟨[], []⟩))
      else List.lookup y m := by
  unfold partitionStep
  cases hc : m.any (fun p => p.1 == it.bsns_year) with
  | true =>
    simp only [hc, if_true]
    rw [lookup_mapUpdate]
    cases hy : (y == it.bsns_year) with
    | true =>
      rw [any_key_eq_isSome] at hc
      rw [← eq_of_beq hy] at hc
      obtain ⟨g, hg⟩ := Option.isSome_iff_exists.mp hc
      simp [hy, hg]
    | false => simp [hy]
  | false =>
    simp only [hc, Bool.false_eq_true, if_false]
    have hmap : (List.map
          (fun p => if p.1 == it.bsns_year then (p.1, routeItem it p.2) else p)
          (m ++ [(it.bsns_year, (⟨[], []⟩ : Groups))])) =
        (List.map (fun p => if p.1 == it.bsns_year then (p.1, routeItem it p.2) else p) m)
          ++ [(it.bsns_year, routeItem it ⟨[], []⟩)] := by
      rw [List.map_append]
      congr 1
      simp
    rw [hmap, lookup_append_singleton, lookup_mapUpdate]
    cases hy : (y == it.bsns_year) with
    | true =>
      rw [any_key_eq_isSome] at hc
      rw [← eq_of_beq hy] at hc
      have hnone : List.lookup y m = none :=
        Option.not_isSome_iff_eq_none.mp (by simp [hc])
      simp [hy, hnone]
    | false =>
      simp only [hy, Bool.false_eq_true, if_false]
      cases List.lookup y m <;> simp [hy]

lemma filterGroups_nil (y : String) : filterGroups y [] = ⟨[], []⟩ := rfl

lemma lookup_foldl_partitionStep (its : List Item) :
    ∀ (m : List (String × Groups)) (y : String),
      List.lookup y (List.foldl partitionStep m its) =
        match List.lookup y m with
        | some g => some ⟨g.bs ++ (filterGroups y its).bs,
                          g.is ++ (filterGroups y its).is⟩
        | none =>
          if its.any (fun it => it.bsns_year == y) then some (filterGroups y its)
          else none := by
  induction its with
  | nil =>
    intro m y
    cases h : List.lookup y m <;> simp [h, filterGroups]
  | cons it rest ih =>
    intro m y
    rw [List.foldl_cons, ih (partitionStep m it) y, lookup_partitionStep]
    by_cases hy : y = it.bsns_year
    · have hyy : (y == it.bsns_year) = true := by simp [hy]
      have hyy2 : (it.bsns_year == y) = true := by simp [hy]
      simp only [hyy, if_true]
      cases hl : List.lookup y m with
      | some g =>
        simp only [hl, Option.getD_some]
        by_cases h1 : it.fs_div = "CFS"
        · simp [routeItem, h1, filterGroups, List.filter_cons, hyy2,
            List.append_assoc]
        · by_cases h2 : it.fs_div = "BS"
          · simp [routeItem, beq_false_of_ne h1, h2, filterGroups,
              List.filter_cons, hyy2, List.append_assoc]
          · by_cases h3 : it.fs_div = "IS"
            · simp [routeItem, beq_false_of_ne h1, beq_false_of_ne h2, h3,
                filterGroups, List.filter_cons, hyy2, List.append_assoc]
            · simp [routeItem, beq_false_of_ne h1, beq_false_of_ne h2,
                beq_false_of_ne h3, filterGroups, List.filter_cons, hyy2]
      | none =>
        simp only [hl, Option.getD_none]
        have hany : ((it :: rest).any (fun i => i.bsns_year == y)) = true := by
          simp [List.any_cons, hyy2]
        simp only [hany, if_true]
        by_cases h1 : it.fs_div = "CFS"
        · simp [routeItem, h1, filterGroups, List.filter_cons, hyy2]
        · by_cases h2 : it.fs_div = "BS"
          · simp [routeItem, beq_false_of_ne h1, h2, filterGroups,
              List.filter_cons, hyy2]
          · by_cases h3 : it.fs_div = "IS"
            · simp [routeItem, beq_false_of_ne h1, beq_false_of_ne h2, h3,
                filterGroups, List.filter_cons, hyy2]
            · simp [routeItem, beq_false_of_ne h1, beq_false_of_ne h2,
                beq_false_of_ne h3, filterGroups, List.filter_cons, hyy2]
    · have hyy : (y == it.bsns_year) = false := beq_false_of_ne hy
      have hyy2 : (it.bsns_year == y) = false := beq_false_of_ne (Ne.symm hy)
      have hfg : filterGroups y (it :: rest) = filterGroups y rest := by
        simp [filterGroups, List.filter_cons, hyy2]
      have hfa : ((it :: rest).any (fun i => i.bsns_year == y)) =
          (rest.any (fun i => i.bsns_year == y)) := by
        simp [List.any_cons, hyy2]
      simp only [hyy, Bool.false_eq_true, if_false, hfg, hfa]

lemma lookup_yearPartition (items : List Item) (y : String) :
    List.lookup y (yearPartition items) =
      if items.any (fun it => it.bsns_year == y) then some (filterGroups y items)
      else none := by
  have h := lookup_foldl_partitionStep items [] y
  simpa [yearPartition] using h

/-- C6: the multi-year partitioner groups items by their fiscal-year field
and routes each item by its `fs_div` statement-type tag: the balance-sheet
bucket of a year holds exactly the BS- and CFS-tagged items of that year,
the income-statement bucket exactly the IS- and CFS-tagged ones (so a
CFS-tagged item lands in both), and items with any other tag are in neither
bucket. -/
theorem partitioner_routes_by_statement_tag (items : List Item) (y : String) :
    List.lookup y (yearPartition items) =
      if items.any (fun it => it.bsns_year == y) then
        some ⟨items.filter
                (fun it => it.bsns_year == y &&
                  (it.fs_div == "BS" || it.fs_div == "CFS")),
              items.filter
                (fun it => it.bsns_year == y &&
                  (it.fs_div == "IS" || it.fs_div == "CFS"))⟩
      else none :=
  lookup_yearPartition items y

/-- C1 counterexample: on a 2021 to 2022 range where 2021 has only an
IncomeStatement item, the summary reports `total_years = 2` and lists both
years — the claim requires 2021 (whose BalanceSheet group is empty) to be
excluded and `total_years = 1`.  Only the metric bundle skips 2021. -/
theorem years_with_one_group_still_counted_cex :
    (createAnalysisSummary c1Items "2021" "2022").map Summary.total_years = some 2 ∧
      (createAnalysisSummary c1Items "2021" "2022").map Summary.years =
        some ["2021", "2022"] ∧
      (createAnalysisSummary c1Items "2021" "2022").map
        (fun s => s.key_metrics.map Prod.fst) = some ["2022"] ∧
      (List.lookup "2021" (yearPartition c1Items)).map Groups.bs = some [] := by
  refine ⟨by decide, by decide, by decide, by decide⟩

/-- C1 amended: only the per-year metric bundle requires both statement
groups to be non-empty; the `years` list and the `total_years` count cover
every distinct fiscal-year string occurring in the input, including years
that lack one (or both) statement groups. -/
theorem summary_years_cover_all_input_years (items : List Item)
    (sy ey : String) (s : Summary)
    (h : createAnalysisSummary items sy ey = some s) :
    s.total_years = (yearPartition items).length ∧
      s.years = pySorted ((yearPartition items).map Prod.fst) ∧
      ∀ y m, (y, m) ∈ s.key_metrics →
        ∃ g, List.lookup y (yearPartition items) = some g ∧
          g.bs ≠ [] ∧ g.is ≠ [] := by
  obtain ⟨-, h1, h2, h3⟩ := summary_fields h
  refine ⟨h1, h2, fun y m hm => ?_⟩
  obtain ⟨g, hg, hb, hi, -⟩ := buildKeyMetrics_mem h3 y m hm
  exact ⟨g, hg, hb, hi⟩

/-- C1 witness: the amended statement at the concrete two-year input
`c1Items`, whose summary is `c1s`. -/
theorem summary_years_cover_all_input_years_witness :
    c1s.total_years = (yearPartition c1Items).length ∧
      c1s.years = pySorted ((yearPartition c1Items).map Prod.fst) := by
  have h := summary_years_cover_all_input_years c1Items "2021" "2022" c1s (by decide)
  exact ⟨h.1, h.2.1⟩

/-- C10: the single-year chart path partitions by the `sj_div` field: an
item reaches the balance-sheet chart data exactly when it is an input item
with `sj_div = "BS"`, the income-statement chart data exactly when
`sj_div = "IS"`; there is no combined-statement folding, so an item with any
other `sj_div` value (such as a combined tag, or an item tagged only via
`fs_div`) is in neither list. -/
theorem single_year_partition_by_sj_div (items : List Item) (it : Item) :
    (it ∈ (singleYearPartition items).1 ↔ it ∈ items ∧ it.sj_div = "BS") ∧
      (it ∈ (singleYearPartition items).2 ↔ it ∈ items ∧ it.sj_div = "IS") := by
  constructor <;> simp [singleYearPartition, List.mem_filter]

/-! Presence of the summary when every amount parses. -/

lemma amount_parses {l : List Item}
    (h : ∀ it ∈ l, (pyFloatVal it.thstrm_amount).isSome = true) (n : String) :
    (pyFloatVal (amountOf (buildDict l) n)).isSome = true := by
  unfold amountOf
  cases hd : buildDict l n with
  | none => rfl
  | some it => exact h it (mem_of_buildDict_eq_some hd)

lemma metricsOf_isSome {g : Groups}
    (hbs : ∀ it ∈ g.bs, (pyFloatVal it.thstrm_amount).isSome = true)
    (his : ∀ it ∈ g.is, (pyFloatVal it.thstrm_amount).isSome = true) :
    (metricsOf g).isSome = true := by
  obtain ⟨r1, h1⟩ := Option.isSome_iff_exists.mp (amount_parses his "매출액")
  obtain ⟨r2, h2⟩ := Option.isSome_iff_exists.mp (amount_parses his "당기순이익")
  obtain ⟨r3, h3⟩ := Option.isSome_iff_exists.mp (amount_parses hbs "자산총계")
  obtain ⟨r4, h4⟩ := Option.isSome_iff_exists.mp (amount_parses hbs "자본총계")
  simp [metricsOf, h1, h2, h3, h4]

lemma buildKeyMetrics_isSome {yd : List (String × Groups)}
    (h : ∀ y g, List.lookup y yd = some g → (metricsOf g).isSome = true) :
    ∀ ys : List String, (buildKeyMetrics yd ys).isSome = true := by
  intro ys
  induction ys with
  | nil => rfl
  | cons y ys ih =>
    rw [buildKeyMetrics]
    cases hl : List.lookup y yd with
    | none => exact ih
    | some g =>
      cases hbe : (g.bs.isEmpty || g.is.isEmpty) with
      | true => simp only [hbe, if_true]; exact ih
      | false =>
        simp only [hbe, Bool.false_eq_true, if_false]
        obtain ⟨m, hm⟩ := Option.isSome_iff_exists.mp (h y g hl)
        rw [hm]
        obtain ⟨rest, hrest⟩ := Option.isSome_iff_exists.mp ih
        rw [hrest]
        rfl

/-- C3 counterexample: the Aggregation Summary converts amounts with the raw
float builtin, not with the `safe_convert` normalizer — on a year with both
statement groups whose revenue amount is the dash placeholder, the float
conversion fails and the whole summary is absent (`None`), although the
normalizer maps the same amount to 0. -/
theorem unparsable_amount_kills_summary_cex :
    createAnalysisSummary c3Items "2022" "2022" = none ∧
      safe_convert (PyVal.str "-") = 0 ∧
      (pyFloatVal (PyVal.str "-")).isSome = false := by
  refine ⟨by decide, by decide, by decide⟩

/-- C3 amended: the summary never fails when every amount in the input
parses under the raw float builtin; an unparsable amount in a year with both
groups non-empty, however, aborts the whole summary (see the counterexample)
instead of being normalized to 0 — only the chart-side Ratio Deriver routes
amounts through `safe_convert`. -/
theorem summary_present_when_amounts_parse (items : List Item) (sy ey : String)
    (h : ∀ it ∈ items, (pyFloatVal it.thstrm_amount).isSome = true) :
    (createAnalysisSummary items sy ey).isSome = true := by
  unfold createAnalysisSummary
  have hall : ∀ y g, List.lookup y (yearPartition items) = some g →
      (metricsOf g).isSome = true := by
    intro y g hg
    rw [lookup_yearPartition] at hg
    cases ha : items.any (fun it => it.bsns_year == y) with
    | false => rw [ha] at hg; exact absurd hg (by simp)
    | true =>
      rw [ha] at hg
      simp only [if_true] at hg
      injection hg with hg
      subst hg
      refine metricsOf_isSome ?_ ?_ <;> intro it hit <;>
        exact h it (List.mem_of_mem_filter hit)
  have hs := buildKeyMetrics_isSome hall
      (pySorted ((yearPartition items).map Prod.fst))
  obtain ⟨km, hkm⟩ := Option.isSome_iff_exists.mp hs
  simp [hkm]

/-- C3 witness: the amended statement at the concrete all-parseable input
`c1Items`. -/
theorem summary_present_when_amounts_parse_witness :
    (createAnalysisSummary c1Items "2021" "2022").isSome = true :=
  summary_present_when_amounts_parse c1Items "2021" "2022" (by decide)

/-! Order-theoretic facts about the lexicographic string comparison and its
relation to numeric comparison on digit strings. -/

lemma lexLe_total : ∀ as bs : List Char, lexLe as bs = true ∨ lexLe bs as = true
  | [], _ => Or.inl rfl
  | _ :: _, [] => Or.inr rfl
  | a :: as, b :: bs => by
    by_cases h : a = b
    · subst h
      rcases lexLe_total as bs with h | h
      · left; simp [lexLe, h]
      · right; simp [lexLe, h]
    · rcases lt_or_gt_of_ne h with hlt | hgt
      · left; simp [lexLe, h, hlt]
      · right; simp [lexLe, Ne.symm h, hgt]

lemma lexLe_trans : ∀ as bs cs : List Char,
    lexLe as bs = true → lexLe bs cs = true → lexLe as cs = true
  | [], _, _, _, _ => rfl
  | _ :: _, [], _, h, _ => by simp [lexLe] at h
  | _ :: _, _ :: _, [], _, h => by simp [lexLe] at h
  | a :: as, b :: bs, c :: cs, h1, h2 => by
    by_cases hab : a = b <;> by_cases hbc : b = c
    · subst hab; subst hbc
      simp only [lexLe, if_pos rfl] at h1 h2 ⊢
      exact lexLe_trans as bs cs h1 h2
    · subst hab
      simp only [lexLe, if_pos rfl, if_neg hbc] at h2 ⊢
      exact h2
    · subst hbc
      simp only [lexLe, if_pos rfl, if_neg hab] at h1 ⊢
      exact h1
    · simp only [lexLe, if_neg hab, if_neg hbc, decide_eq_true_eq] at h1 h2
      have hac : a < c := lt_trans h1 h2
      simp [lexLe, ne_of_lt hac, hac]

instance : IsTotal String strLeProp :=
  ⟨fun a b => lexLe_total a.data b.data⟩

instance : IsTrans String strLeProp :=
  ⟨fun a b c => lexLe_trans a.data b.data c.data⟩

lemma digitsFold (cs : List Char) :
    ∀ a : ℕ, cs.foldl (fun x c => x * 10 + (c.toNat - 48)) a =
      a * 10 ^ cs.length + digitsToNat cs := by
  induction cs with
  | nil => intro a; simp [digitsToNat]
  | cons c cs ih =>
    intro a
    have h1 := ih (a * 10 + (c.toNat - 48))
    have h2 := ih (0 * 10 + (c.toNat - 48))
    simp only [List.foldl_cons, digitsToNat, List.length_cons] at h1 h2 ⊢
    rw [h1, h2]
    ring

lemma digitsToNat_cons (c : Char) (cs : List Char) :
    digitsToNat (c :: cs) = (c.toNat - 48) * 10 ^ cs.length + digitsToNat cs := by
  have h := digitsFold cs (c.toNat - 48)
  simp only [digitsToNat, List.foldl_cons]
  simpa using h

lemma toNat_bounds_of_isDigit {c : Char} (h : c.isDigit = true) :
    48 ≤ c.toNat ∧ c.toNat ≤ 57 := by
  unfold Char.isDigit at h
  simp at h
  exact ⟨h.1, h.2⟩

lemma digitsToNat_lt (cs : List Char) (h : cs.all Char.isDigit = true) :
    digitsToNat cs < 10 ^ cs.length := by
  induction cs with
  | nil => simp [digitsToNat]
  | cons c cs ih =>
    rw [List.all_cons, Bool.and_eq_true] at h
    have hd : c.toNat - 48 ≤ 9 := by
      have := toNat_bounds_of_isDigit h.1
      omega
    have hv := ih h.2
    rw [digitsToNat_cons, List.length_cons, pow_succ]
    have h3 : (c.toNat - 48) * 10 ^ cs.length ≤ 9 * 10 ^ cs.length :=
      Nat.mul_le_mul_right _ hd
    have h4 : (0:ℕ) < 10 ^ cs.length := Nat.pos_pow_of_pos _ (by omega)
    nlinarith

lemma lexLe_iff_nat : ∀ as bs : List Char, as.length = bs.length →
    as.all Char.isDigit = true → bs.all Char.isDigit = true →
    (lexLe as bs = true ↔ digitsToNat as ≤ digitsToNat bs)
  | [], [], _, _, _ => by simp [lexLe]
  | [], _ :: _, h, _, _ => by simp at h
  | _ :: _, [], h, _, _ => by simp at h
  | a :: as, b :: bs, h, ha, hb => by
    rw [List.all_cons, Bool.and_eq_true] at ha hb
    have hlen : as.length = bs.length := by simpa using h
    have hba := toNat_bounds_of_isDigit ha.1
    have hbb := toNat_bounds_of_isDigit hb.1
    have hva := digitsToNat_lt as ha.2
    have hvb := digitsToNat_lt bs hb.2
    rw [digitsToNat_cons, digitsToNat_cons, hlen]
    by_cases hab : a = b
    · subst hab
      simp only [lexLe, if_pos rfl]
      have hiff := lexLe_iff_nat as bs hlen ha.2 hb.2
      constructor
      · intro hle
        have := hiff.mp hle
        omega
      · intro hle
        refine hiff.mpr ?_
        omega
    · rcases lt_or_gt_of_ne hab with hlt | hgt
      · have hdn : a.toNat - 48 < b.toNat - 48 := by
          have : a.toNat < b.toNat := hlt
          omega
        have hstep : (a.toNat - 48 + 1) * 10 ^ bs.length ≤
            (b.toNat - 48) * 10 ^ bs.length := Nat.mul_le_mul_right _ (by omega)
        rw [Nat.succ_mul] at hstep
        rw [hlen] at hva
        simp only [lexLe, if_neg hab, decide_eq_true_eq]
        constructor
        · intro _
          omega
        · intro _
          exact hlt
      · have hdn : b.toNat - 48 < a.toNat - 48 := by
          have : b.toNat < a.toNat := hgt
          omega
        have hstep : (b.toNat - 48 + 1) * 10 ^ bs.length ≤
            (a.toNat - 48) * 10 ^ bs.length := Nat.mul_le_mul_right _ (by omega)
        rw [Nat.succ_mul] at hstep
        simp only [lexLe, if_neg hab, decide_eq_true_eq]
        constructor
        · intro hc
          exact absurd hc (not_lt_of_gt hgt)
        · intro hc
          omega

/-- C8 counterexample: with year strings of different digit widths, the
summary orders years lexicographically — "1000" before "999" — although the
integer order puts 999 first, refuting the claim that string years are
sorted as integers. -/
theorem years_lexicographic_not_numeric_cex :
    (createAnalysisSummary c8Items "999" "1000").map Summary.years =
      some ["1000", "999"] ∧
      strNat "999" < strNat "1000" ∧
      ["1000", "999"] ≠ ["999", "1000"] := by
  refine ⟨by decide, by decide, by decide⟩

/-- C8 amended: the summary sorts year strings in ascending LEXICOGRAPHIC
(code-point) order, a permutation of the distinct input years; this
coincides with integer-ascending order whenever all year strings are digit
strings of one common width (as 4-digit years are), but not across differing
widths. -/
theorem summary_years_sorted_lexicographically (items : List Item)
    (sy ey : String) (s : Summary)
    (h : createAnalysisSummary items sy ey = some s) :
    List.Pairwise strLeProp s.years ∧
      List.Perm s.years ((yearPartition items).map Prod.fst) ∧
      ∀ n : ℕ, (∀ y ∈ s.years, y.data.length = n ∧ y.data.all Char.isDigit = true) →
        List.Pairwise numLe s.years := by
  have hy := (summary_fields h).2.2.1
  refine ⟨?_, ?_, ?_⟩
  · rw [hy]; exact List.sorted_insertionSort strLeProp _
  · rw [hy]; exact List.perm_insertionSort strLeProp _
  · intro n hall
    have hp : List.Pairwise strLeProp s.years := by
      rw [hy]; exact List.sorted_insertionSort strLeProp _
    refine List.Pairwise.imp_of_mem ?_ hp
    intro a b ha hb hab
    obtain ⟨hla, hda⟩ := hall a ha
    obtain ⟨hlb, hdb⟩ := hall b hb
    exact (lexLe_iff_nat a.data b.data (by rw [hla, hlb]) hda hdb).mp hab

/-- C8 witness: on the concrete 4-digit years 2019, 2021, 2020 (input order)
the summary year list is numerically ascending, by the amended theorem
applied at width 4. -/
theorem summary_years_sorted_lexicographically_witness :
    List.Pairwise numLe c8s.years := by
  have h := summary_years_sorted_lexicographically c8wItems "2019" "2021" c8s
    (by decide)
  exact h.2.2 4 (by decide)

end FsApp
